import Mathlib

/-!
Verification of the discrete-time simulation drivers of the `popbio`
notebook (`src/notebooks/interactions.ipynb`).

The notebook defines two numpy-based drivers:

```
def run_sim(N0, gen_fn, ngens, dtype='int', **kwargs):
    N = np.empty((ngens, len(N0)), dtype=dtype)
    N[0, :] = N0
    for t in range(1, ngens):
        N[t, :] = gen_fn(N[t-1, :], **kwargs)
    return N

def run_sim_2d(N0, M0, gen_fn, ngens, dtype='int', **kwargs):
    assert(len(N0) == len(M0))
    N = np.empty((ngens, len(N0)), dtype=dtype)
    N[0, :] = N0
    M = np.empty((ngens, len(M0)), dtype=dtype)
    M[0, :] = M0
    for t in range(1, ngens):
        N[t, :], M[t, :] = gen_fn(N[t-1, :], M[t-1, :], **kwargs)
    return N, M
```

The embedding models numeric scalars as rationals (`ℚ`), which represent
both the integer and floating-point values the notebook actually uses
exactly.  The relevant numpy semantics are made explicit:

* `np.empty((ngens, L))` raises `ValueError` for negative `ngens`; when
  `ngens = 0` the allocation succeeds but the assignment `N[0, :] = N0`
  raises `IndexError`.
* assignment into a row of a `dtype='int'` array coerces each value by
  C-style truncation toward zero (`castD`); `dtype='float'` stores the
  value unchanged (float rounding is immaterial for the claims checked
  here, all of which use exactly representable values).
* the row assignment `N[t, :] = out` accepts an `out` of length `L`
  (stored elementwise) or of length `1` (numpy broadcasts the single
  value across the row); any other length raises `ValueError`
  (`assignRow`).
* `gen_fn` receives the slice `N[t-1, :]`, a mutable view into the
  trajectory buffer.  For transition functions that do not mutate their
  argument this is equivalent to receiving the stored row by value
  (`run_sim`, `run_sim_2d`); the mutation-aware models `run_sim_mut` and
  `run_sim_2d_mut` additionally record what the transition function left
  in the viewed row, and write it back into slot `t-1`, which is what the
  view aliasing does in numpy.
* `**kwargs` (the fixed per-model parameter set) is modelled by letting
  the transition function close over its parameters: the driver passes
  the identical parameter set at every step, so a transition function
  together with its parameters is one Lean function.

Python's `ngens` is an arbitrary integer, so the generation count is
modelled as `ℤ`; `range(1, ngens)` performs `max 0 (ngens - 1)` steps.
-/

/-- The `dtype` argument of the drivers; the notebook only ever passes
`'int'` (the Python default) or `'float'`. -/
inductive Dtype where
  | int : Dtype
  | float : Dtype
deriving DecidableEq

/-- C-style truncation toward zero of a rational, as performed by numpy
when storing a value into an `int64` array: the quotient of numerator by
denominator rounded toward zero. -/
def truncQ (q : ℚ) : ℤ :=
  Int.tdiv q.num (q.den : ℤ)

/-- Coercion applied by numpy when a value is stored into an array of
the given dtype. -/
def castD : Dtype → ℚ → ℚ
  | Dtype.int, q => ((truncQ q : ℤ) : ℚ)
  | Dtype.float, q => q

/-- The ways a driver invocation can raise instead of returning:
`ValueError` from `np.empty` on a negative dimension, `IndexError` from
`N[0, :] = N0` when `ngens = 0`, `ValueError` from a non-broadcastable
row assignment, and `AssertionError` from the length assert of
`run_sim_2d`. -/
inductive SimError where
  | negativeDimension : SimError
  | indexError : SimError
  | shapeMismatch : SimError
  | assertionError : SimError
deriving DecidableEq

deriving instance DecidableEq for Except

/-- numpy semantics of the row assignment `N[t, :] = out` into a row of
width `L`: an `out` of length `L` is stored as is, an `out` of length
`1` is broadcast across the row, anything else raises. -/
def assignRow (L : ℕ) (out : List ℚ) : Option (List ℚ) :=
  if out.length = L then some out
  else
    match out with
    | [x] => some (List.replicate L x)
    | _ => none

/-- The loop `for t in range(1, ngens)` of `run_sim`, run for `k`
remaining iterations: `prev` is the stored row `N[t-1, :]`, and the
result collects the rows written at indices `t, t+1, ...`.  Each written
row is the (possibly broadcast) transition output coerced by the dtype
of the buffer. -/
def simLoop (gen_fn : List ℚ → List ℚ) (dt : Dtype) (L : ℕ) :
    ℕ → List ℚ → Except SimError (List (List ℚ))
  | 0, _ => Except.ok []
  | k + 1, prev =>
    match assignRow L (gen_fn prev) with
    | none => Except.error SimError.shapeMismatch
    | some row =>
      match simLoop gen_fn dt L k (row.map (castD dt)) with
      | Except.error e => Except.error e
      | Except.ok rs => Except.ok (row.map (castD dt) :: rs)

/-- The single-track driver `run_sim` of the notebook.  In the source
`dtype` defaults to `'int'`; here it is always passed explicitly. -/
def run_sim (N0 : List ℚ) (gen_fn : List ℚ → List ℚ) (ngens : ℤ)
    (dtype : Dtype) : Except SimError (List (List ℚ)) :=
  if ngens < 0 then Except.error SimError.negativeDimension
  else if ngens = 0 then Except.error SimError.indexError
  else
    match simLoop gen_fn dtype N0.length (ngens - 1).toNat
        (N0.map (castD dtype)) with
    | Except.error e => Except.error e
    | Except.ok rs => Except.ok (N0.map (castD dtype) :: rs)

/-- The loop `for t in range(1, ngens)` of `run_sim_2d`: both rows at
index `t` are written from the pair returned by one call of the joint
transition function. -/
def loop2d (gen_fn : List ℚ → List ℚ → List ℚ × List ℚ) (dt : Dtype)
    (L : ℕ) :
    ℕ → List ℚ → List ℚ → Except SimError (List (List ℚ) × List (List ℚ))
  | 0, _, _ => Except.ok ([], [])
  | k + 1, prevN, prevM =>
    match assignRow L (gen_fn prevN prevM).1,
        assignRow L (gen_fn prevN prevM).2 with
    | some rn, some rm =>
      match loop2d gen_fn dt L k (rn.map (castD dt)) (rm.map (castD dt)) with
      | Except.error e => Except.error e
      | Except.ok (a, b) =>
        Except.ok (rn.map (castD dt) :: a, rm.map (castD dt) :: b)
    | _, _ => Except.error SimError.shapeMismatch

/-- The dual-track driver `run_sim_2d` of the notebook.  The Python
`assert(len(N0) == len(M0))` runs before any allocation or computation. -/
def run_sim_2d (N0 M0 : List ℚ) (gen_fn : List ℚ → List ℚ → List ℚ × List ℚ)
    (ngens : ℤ) (dtype : Dtype) :
    Except SimError (List (List ℚ) × List (List ℚ)) :=
  if N0.length ≠ M0.length then Except.error SimError.assertionError
  else if ngens < 0 then Except.error SimError.negativeDimension
  else if ngens = 0 then Except.error SimError.indexError
  else
    match loop2d gen_fn dtype N0.length (ngens - 1).toNat
        (N0.map (castD dtype)) (M0.map (castD dtype)) with
    | Except.error e => Except.error e
    | Except.ok (a, b) =>
      Except.ok (N0.map (castD dtype) :: a, M0.map (castD dtype) :: b)

/-- Mutation-aware loop of `run_sim`.  The transition function receives
the contents of the view `N[t-1, :]` and reports a pair: the contents it
left in that view on return (first component) and its return value
(second component).  The driver writes the view contents back into slot
`t-1` — that is what mutating the numpy view does to the buffer — and
assigns the return value to slot `t`.  `done` accumulates the rows
already written and no longer reachable from any view the transition
function is ever given. -/
def mutLoop (gen_fn : List ℚ → List ℚ × List ℚ) (dt : Dtype) (L : ℕ) :
    ℕ → List (List ℚ) → List ℚ → Except SimError (List (List ℚ))
  | 0, done, prev => Except.ok (done ++ [prev])
  | k + 1, done, prev =>
    match assignRow L (gen_fn prev).2 with
    | none => Except.error SimError.shapeMismatch
    | some row =>
      mutLoop gen_fn dt L k (done ++ [(gen_fn prev).1.map (castD dt)])
        (row.map (castD dt))

/-- Mutation-aware model of `run_sim`: like `run_sim`, but the
transition function may mutate the view of row `t-1` it is given, and
the mutation lands in the returned trajectory. -/
def run_sim_mut (N0 : List ℚ) (gen_fn : List ℚ → List ℚ × List ℚ)
    (ngens : ℤ) (dtype : Dtype) : Except SimError (List (List ℚ)) :=
  if ngens < 0 then Except.error SimError.negativeDimension
  else if ngens = 0 then Except.error SimError.indexError
  else
    mutLoop gen_fn dtype N0.length (ngens - 1).toNat []
      (N0.map (castD dtype))

/-- Mutation-aware loop of `run_sim_2d`: the joint transition function
reports the contents it left in both views (first pair) and its returned
pair of next rows (second pair). -/
def loop2dMut
    (gen_fn : List ℚ → List ℚ → (List ℚ × List ℚ) × (List ℚ × List ℚ))
    (dt : Dtype) (L : ℕ) :
    ℕ → List (List ℚ) → List (List ℚ) → List ℚ → List ℚ →
    Except SimError (List (List ℚ) × List (List ℚ))
  | 0, doneN, doneM, prevN, prevM =>
    Except.ok (doneN ++ [prevN], doneM ++ [prevM])
  | k + 1, doneN, doneM, prevN, prevM =>
    match assignRow L (gen_fn prevN prevM).2.1,
        assignRow L (gen_fn prevN prevM).2.2 with
    | some rn, some rm =>
      loop2dMut gen_fn dt L k
        (doneN ++ [(gen_fn prevN prevM).1.1.map (castD dt)])
        (doneM ++ [(gen_fn prevN prevM).1.2.map (castD dt)])
        (rn.map (castD dt)) (rm.map (castD dt))
    | _, _ => Except.error SimError.shapeMismatch

/-- Mutation-aware model of `run_sim_2d`. -/
def run_sim_2d_mut (N0 M0 : List ℚ)
    (gen_fn : List ℚ → List ℚ → (List ℚ × List ℚ) × (List ℚ × List ℚ))
    (ngens : ℤ) (dtype : Dtype) :
    Except SimError (List (List ℚ) × List (List ℚ)) :=
  if N0.length ≠ M0.length then Except.error SimError.assertionError
  else if ngens < 0 then Except.error SimError.negativeDimension
  else if ngens = 0 then Except.error SimError.indexError
  else
    loop2dMut gen_fn dtype N0.length (ngens - 1).toNat [] []
      (N0.map (castD dtype)) (M0.map (castD dtype))

/-- Deterministic stand-in for the notebook's `SI_gen`, keeping exactly
its in-place structure: `SI_gen` mutates the views `S` and `I` it is
handed (`S += np.random.poisson(lam)`, `I -= np.random.binomial(...)`,
...) and returns the very same mutated arrays.  Here the random draws
are fixed to representative constants (two births into every `S` entry,
one net removal from every `I` entry); the first pair reports the
mutated view contents and the second pair is the returned `(S, I)`,
which for `SI_gen` are the same arrays. -/
def siGenLike (S I : List ℚ) : (List ℚ × List ℚ) × (List ℚ × List ℚ) :=
  ((S.map (fun x => x + 2), I.map (fun x => x - 1)),
   (S.map (fun x => x + 2), I.map (fun x => x - 1)))

-- Basic facts about the embedding.

theorem truncQ_intCast (n : ℤ) : truncQ ((n : ℤ) : ℚ) = n := by
  simp [truncQ]

theorem castD_idem (dt : Dtype) (q : ℚ) : castD dt (castD dt q) = castD dt q := by
  cases dt with
  | int => simp [castD, truncQ_intCast]
  | float => rfl

theorem map_castD_idem (dt : Dtype) (l : List ℚ) :
    (l.map (castD dt)).map (castD dt) = l.map (castD dt) := by
  induction l with
  | nil => rfl
  | cons x xs ih => simp [castD_idem, ih]

theorem assignRow_some_length {L : ℕ} {out r : List ℚ}
    (h : assignRow L out = some r) : r.length = L := by
  unfold assignRow at h
  split at h
  · cases h; omega
  · split at h
    · cases h; simp
    · cases h

theorem assignRow_some_outLength {L : ℕ} {out r : List ℚ}
    (h : assignRow L out = some r) : out.length = L ∨ out.length = 1 := by
  unfold assignRow at h
  split at h
  · left; assumption
  · split at h
    · right; rfl
    · cases h

theorem assignRow_none {L : ℕ} {out : List ℚ} (h1 : out.length ≠ L)
    (h2 : out.length ≠ 1) : assignRow L out = none := by
  unfold assignRow
  rw [if_neg h1]
  match out with
  | [] => rfl
  | [x] => exact absurd rfl h2
  | x :: y :: t => rfl

theorem simLoop_ok_length (gen_fn : List ℚ → List ℚ) (dt : Dtype) (L : ℕ) :
    ∀ (k : ℕ) (prev : List ℚ) (rs : List (List ℚ)),
      simLoop gen_fn dt L k prev = Except.ok rs → rs.length = k := by
  intro k
  induction k with
  | zero =>
    intro prev rs h
    simp [simLoop] at h
    simp [← h]
  | succ k ih =>
    intro prev rs h
    rw [simLoop] at h
    split at h
    · cases h
    · rename_i row heq
      split at h
      · cases h
      · rename_i rs0 hrec
        cases h
        simp [ih _ _ hrec]

theorem simLoop_ok_rows (gen_fn : List ℚ → List ℚ) (dt : Dtype) (L : ℕ) :
    ∀ (k : ℕ) (prev : List ℚ) (rs : List (List ℚ)),
      simLoop gen_fn dt L k prev = Except.ok rs →
      ∀ row ∈ rs, row.length = L ∧ ∃ raw, row = List.map (castD dt) raw := by
  intro k
  induction k with
  | zero =>
    intro prev rs h
    simp [simLoop] at h
    subst h
    intro row hrow
    cases hrow
  | succ k ih =>
    intro prev rs h
    rw [simLoop] at h
    split at h
    · cases h
    · rename_i row heq
      split at h
      · cases h
      · rename_i rs0 hrec
        cases h
        intro r hr
        rcases List.mem_cons.mp hr with h0 | h0
        · subst h0
          exact ⟨by simp [assignRow_some_length heq], row, rfl⟩
        · exact ih _ _ hrec r h0

theorem simLoop_get_succ (gen_fn : List ℚ → List ℚ) (dt : Dtype) (L : ℕ) :
    ∀ (k : ℕ) (prev : List ℚ) (rs : List (List ℚ)),
      simLoop gen_fn dt L k prev = Except.ok rs →
      ∀ (t : ℕ) (h1 : t < (prev :: rs).length)
        (h2 : t + 1 < (prev :: rs).length),
        ∃ r, assignRow L (gen_fn ((prev :: rs)[t])) = some r ∧
          (prev :: rs)[t + 1] = List.map (castD dt) r := by
  intro k
  induction k with
  | zero =>
    intro prev rs h t h1 h2
    simp [simLoop] at h
    subst h
    simp at h2
  | succ k ih =>
    intro prev rs h t h1 h2
    rw [simLoop] at h
    split at h
    · cases h
    · rename_i row heq
      split at h
      · cases h
      · rename_i rs0 hrec
        cases h
        cases t with
        | zero => exact ⟨row, heq, by simp⟩
        | succ s =>
          have hlen : s + 1 < (List.map (castD dt) row :: rs0).length := by
            simp at h2 ⊢
            omega
          have hlen1 : s < (List.map (castD dt) row :: rs0).length := by
            omega
          have := ih (List.map (castD dt) row) rs0 hrec s hlen1 hlen
          simpa using this

theorem run_sim_ok_elim {N0 : List ℚ} {gen_fn : List ℚ → List ℚ}
    {ngens : ℤ} {dt : Dtype} {traj : List (List ℚ)}
    (h : run_sim N0 gen_fn ngens dt = Except.ok traj) :
    1 ≤ ngens ∧ ∃ rs,
      simLoop gen_fn dt N0.length (ngens - 1).toNat (N0.map (castD dt)) =
        Except.ok rs ∧ traj = N0.map (castD dt) :: rs := by
  unfold run_sim at h
  split at h
  · cases h
  · split at h
    · cases h
    · split at h
      · cases h
      · rename_i h0 h1 rs hloop
        cases h
        exact ⟨by omega, rs, hloop, rfl⟩

theorem loop2d_ok_length (gen_fn : List ℚ → List ℚ → List ℚ × List ℚ)
    (dt : Dtype) (L : ℕ) :
    ∀ (k : ℕ) (prevN prevM : List ℚ) (a b : List (List ℚ)),
      loop2d gen_fn dt L k prevN prevM = Except.ok (a, b) →
      a.length = k ∧ b.length = k := by
  intro k
  induction k with
  | zero =>
    intro prevN prevM a b h
    simp [loop2d] at h
    obtain ⟨ha, hb⟩ := h
    subst ha
    subst hb
    simp
  | succ k ih =>
    intro prevN prevM a b h
    rw [loop2d] at h
    split at h
    · rename_i rn rm heqN heqM
      split at h
      · cases h
      · rename_i p hrec
        cases h
        obtain ⟨ha, hb⟩ := ih _ _ _ _ hrec
        simp [ha, hb]
    · cases h

theorem loop2d_ok_rows (gen_fn : List ℚ → List ℚ → List ℚ × List ℚ)
    (dt : Dtype) (L : ℕ) :
    ∀ (k : ℕ) (prevN prevM : List ℚ) (a b : List (List ℚ)),
      loop2d gen_fn dt L k prevN prevM = Except.ok (a, b) →
      (∀ row ∈ a, row.length = L ∧ ∃ raw, row = List.map (castD dt) raw) ∧
      (∀ row ∈ b, row.length = L ∧ ∃ raw, row = List.map (castD dt) raw) := by
  intro k
  induction k with
  | zero =>
    intro prevN prevM a b h
    simp [loop2d] at h
    obtain ⟨ha, hb⟩ := h
    subst ha
    subst hb
    constructor
    · intro row hrow; cases hrow
    · intro row hrow; cases hrow
  | succ k ih =>
    intro prevN prevM a b h
    rw [loop2d] at h
    split at h
    · rename_i rn rm heqN heqM
      split at h
      · cases h
      · rename_i p hrec
        cases h
        obtain ⟨ha, hb⟩ := ih _ _ _ _ hrec
        constructor
        · intro r hr
          rcases List.mem_cons.mp hr with h0 | h0
          · subst h0
            exact ⟨by simp [assignRow_some_length heqN], rn, rfl⟩
          · exact ha r h0
        · intro r hr
          rcases List.mem_cons.mp hr with h0 | h0
          · subst h0
            exact ⟨by simp [assignRow_some_length heqM], rm, rfl⟩
          · exact hb r h0
    · cases h

theorem run_sim_2d_ok_elim {N0 M0 : List ℚ}
    {gen_fn : List ℚ → List ℚ → List ℚ × List ℚ} {ngens : ℤ} {dt : Dtype}
    {tN tM : List (List ℚ)}
    (h : run_sim_2d N0 M0 gen_fn ngens dt = Except.ok (tN, tM)) :
    N0.length = M0.length ∧ 1 ≤ ngens ∧ ∃ a b,
      loop2d gen_fn dt N0.length (ngens - 1).toNat (N0.map (castD dt))
          (M0.map (castD dt)) = Except.ok (a, b) ∧
      tN = N0.map (castD dt) :: a ∧ tM = M0.map (castD dt) :: b := by
  unfold run_sim_2d at h
  split at h
  · cases h
  · split at h
    · cases h
    · split at h
      · cases h
      · split at h
        · cases h
        · rename_i hne h0 h1 p a b hloop
          cases h
          refine ⟨by omega, by omega, a, b, hloop, rfl, rfl⟩

theorem mutLoop_pure (gen_fn : List ℚ → List ℚ × List ℚ) (dt : Dtype)
    (L : ℕ) (hf : ∀ v, (gen_fn v).1 = v) :
    ∀ (k : ℕ) (done : List (List ℚ)) (prev : List ℚ),
      List.map (castD dt) prev = prev →
      mutLoop gen_fn dt L k done prev =
        match simLoop (fun v => (gen_fn v).2) dt L k prev with
        | Except.error e => Except.error e
        | Except.ok rs => Except.ok (done ++ prev :: rs) := by
  intro k
  induction k with
  | zero =>
    intro done prev hprev
    simp [mutLoop, simLoop]
  | succ k ih =>
    intro done prev hprev
    cases hassign : assignRow L (gen_fn prev).2 with
    | none => simp only [mutLoop, simLoop, hassign]
    | some row =>
      simp only [mutLoop, simLoop, hassign]
      rw [hf prev, hprev]
      rw [ih (done ++ [prev]) (List.map (castD dt) row) (map_castD_idem dt row)]
      cases simLoop (fun v => (gen_fn v).2) dt L k (List.map (castD dt) row) with
      | error e => rfl
      | ok rs => simp

theorem run_sim_mut_pure (N0 : List ℚ) (gen_fn : List ℚ → List ℚ × List ℚ)
    (ngens : ℤ) (dt : Dtype) (hf : ∀ v, (gen_fn v).1 = v) :
    run_sim_mut N0 gen_fn ngens dt =
      run_sim N0 (fun v => (gen_fn v).2) ngens dt := by
  unfold run_sim_mut run_sim
  split
  · rfl
  · split
    · rfl
    · rw [mutLoop_pure gen_fn dt N0.length hf (ngens - 1).toNat []
        (N0.map (castD dt)) (map_castD_idem dt N0)]
      cases simLoop (fun v => (gen_fn v).2) dt N0.length (ngens - 1).toNat
          (N0.map (castD dt)) with
      | error e => rfl
      | ok rs => simp

theorem loop2dMut_pure
    (gen_fn : List ℚ → List ℚ → (List ℚ × List ℚ) × (List ℚ × List ℚ))
    (dt : Dtype) (L : ℕ) (hf : ∀ v w, (gen_fn v w).1 = (v, w)) :
    ∀ (k : ℕ) (doneN doneM : List (List ℚ)) (prevN prevM : List ℚ),
      List.map (castD dt) prevN = prevN →
      List.map (castD dt) prevM = prevM →
      loop2dMut gen_fn dt L k doneN doneM prevN prevM =
        match loop2d (fun v w => (gen_fn v w).2) dt L k prevN prevM with
        | Except.error e => Except.error e
        | Except.ok (a, b) =>
          Except.ok (doneN ++ prevN :: a, doneM ++ prevM :: b) := by
  intro k
  induction k with
  | zero =>
    intro doneN doneM prevN prevM hpn hpm
    simp [loop2dMut, loop2d]
  | succ k ih =>
    intro doneN doneM prevN prevM hpn hpm
    cases hasN : assignRow L (gen_fn prevN prevM).2.1 with
    | none => simp only [loop2dMut, loop2d, hasN]
    | some rn =>
      cases hasM : assignRow L (gen_fn prevN prevM).2.2 with
      | none => simp only [loop2dMut, loop2d, hasN, hasM]
      | some rm =>
        simp only [loop2dMut, loop2d, hasN, hasM]
        rw [hf prevN prevM]
        simp only []
        rw [hpn, hpm]
        rw [ih (doneN ++ [prevN]) (doneM ++ [prevM])
          (List.map (castD dt) rn) (List.map (castD dt) rm)
          (map_castD_idem dt rn) (map_castD_idem dt rm)]
        cases hrec : loop2d (fun v w => (gen_fn v w).2) dt L k
            (List.map (castD dt) rn) (List.map (castD dt) rm) with
        | error e => rfl
        | ok p =>
          obtain ⟨a, b⟩ := p
          simp

theorem run_sim_2d_mut_pure (N0 M0 : List ℚ)
    (gen_fn : List ℚ → List ℚ → (List ℚ × List ℚ) × (List ℚ × List ℚ))
    (ngens : ℤ) (dt : Dtype) (hf : ∀ v w, (gen_fn v w).1 = (v, w)) :
    run_sim_2d_mut N0 M0 gen_fn ngens dt =
      run_sim_2d N0 M0 (fun v w => (gen_fn v w).2) ngens dt := by
  unfold run_sim_2d_mut run_sim_2d
  split
  · rfl
  · split
    · rfl
    · split
      · rfl
      · rw [loop2dMut_pure gen_fn dt N0.length hf (ngens - 1).toNat [] []
          (N0.map (castD dt)) (M0.map (castD dt))
          (map_castD_idem dt N0) (map_castD_idem dt M0)]
        cases loop2d (fun v w => (gen_fn v w).2) dt N0.length
            (ngens - 1).toNat (N0.map (castD dt)) (M0.map (castD dt)) with
        | error e => rfl
        | ok p =>
          obtain ⟨a, b⟩ := p
          simp

/-- C6: running the single-track driver `run_sim` with initial vector
`[10]`, deterministic transition `f(N) = N + 1`, and generation count 5
returns the trajectory `[10, 11, 12, 13, 14]`. -/
theorem run_sim_concrete_five :
    run_sim [(10 : ℚ)] (fun v => v.map (fun x => x + 1)) 5 Dtype.int =
      Except.ok [[10], [11], [12], [13], [14]] := by
  norm_num [run_sim, simLoop, assignRow, castD, truncQ]

/-- C7: running the dual-track driver `run_sim_2d` with initial vectors
`([10], [0])`, deterministic transition `f(N, M) = (N - 1, M + 1)`, and
generation count 4 returns the N-trajectory `[10, 9, 8, 7]` and the
M-trajectory `[0, 1, 2, 3]`. -/
theorem run_sim_2d_concrete_four :
    run_sim_2d [(10 : ℚ)] [(0 : ℚ)]
        (fun n m => (n.map (fun x => x - 1), m.map (fun x => x + 1)))
        4 Dtype.int =
      Except.ok ([[10], [9], [8], [7]], [[0], [1], [2], [3]]) := by
  norm_num [run_sim_2d, loop2d, assignRow, castD, truncQ]

/-- C1 (amended): for every successful driver invocation the returned
trajectory (each of the two for `run_sim_2d`) has exactly `ngens`
entries, and entry 0 equals the dtype coercion of the supplied initial
vector — which is the initial vector itself exactly when its values are
fixed by the requested dtype (in particular for integer values under the
default `'int'` dtype). -/
theorem run_sim_length_and_head :
    (∀ (N0 : List ℚ) (gen_fn : List ℚ → List ℚ) (ngens : ℤ) (dt : Dtype)
        (traj : List (List ℚ)),
      run_sim N0 gen_fn ngens dt = Except.ok traj →
      (traj.length : ℤ) = ngens ∧ traj.head? = some (N0.map (castD dt))) ∧
    (∀ (N0 M0 : List ℚ) (gen_fn : List ℚ → List ℚ → List ℚ × List ℚ)
        (ngens : ℤ) (dt : Dtype) (tN tM : List (List ℚ)),
      run_sim_2d N0 M0 gen_fn ngens dt = Except.ok (tN, tM) →
      (tN.length : ℤ) = ngens ∧ (tM.length : ℤ) = ngens ∧
      tN.head? = some (N0.map (castD dt)) ∧
      tM.head? = some (M0.map (castD dt))) := by
  constructor
  · intro N0 gen_fn ngens dt traj hrun
    obtain ⟨hn, rs, hloop, htraj⟩ := run_sim_ok_elim hrun
    have hlen := simLoop_ok_length gen_fn dt N0.length _ _ _ hloop
    subst htraj
    constructor
    · simp [hlen]
      omega
    · simp
  · intro N0 M0 gen_fn ngens dt tN tM hrun
    obtain ⟨hL, hn, a, b, hloop, htN, htM⟩ := run_sim_2d_ok_elim hrun
    obtain ⟨ha, hb⟩ := loop2d_ok_length gen_fn dt N0.length _ _ _ _ _ hloop
    subst htN
    subst htM
    refine ⟨by simp [ha]; omega, by simp [hb]; omega, by simp, by simp⟩

/-- C1 counterexample: under the default `'int'` dtype a fractional
initial value is stored truncated, so entry 0 of the returned trajectory
is not the supplied initial vector: with initial vector `[1/2]` the
stored generation 0 is `[0]`. -/
theorem run_sim_head_not_exact :
    run_sim [(1 : ℚ) / 2] (fun v => v) 1 Dtype.int = Except.ok [[0]] ∧
    (1 : ℚ) / 2 ≠ 0 := by
  have htd : Int.tdiv 1 2 = 0 := by decide
  constructor
  · norm_num [run_sim, simLoop, assignRow, castD, truncQ, htd]
  · norm_num

theorem run_sim_length_and_head_witness :
    ((([[(10 : ℚ)], [10]] : List (List ℚ)).length : ℤ) = 2 ∧
      ([[(10 : ℚ)], [10]] : List (List ℚ)).head? =
        some ([(10 : ℚ)].map (castD Dtype.int))) ∧
    ((([[(3 : ℚ)], [3]] : List (List ℚ)).length : ℤ) = 2 ∧
      (([[(4 : ℚ)], [4]] : List (List ℚ)).length : ℤ) = 2 ∧
      ([[(3 : ℚ)], [3]] : List (List ℚ)).head? =
        some ([(3 : ℚ)].map (castD Dtype.int)) ∧
      ([[(4 : ℚ)], [4]] : List (List ℚ)).head? =
        some ([(4 : ℚ)].map (castD Dtype.int))) :=
  ⟨run_sim_length_and_head.1 [(10 : ℚ)] (fun v => v) 2 Dtype.int
      [[10], [10]] (by decide),
   run_sim_length_and_head.2 [(3 : ℚ)] [(4 : ℚ)] (fun v w => (v, w)) 2
      Dtype.int [[3], [3]] [[4], [4]] (by decide)⟩

/-- C2 (amended): for every deterministic transition function, the
successful trajectory satisfies the step recurrence with the numpy
storage semantics made explicit: `trajectory[t+1]` is the dtype coercion
of the (possibly length-1-broadcast) output of the transition function on
`trajectory[t]`.  When the output already has length `L` and its values
are fixed by the dtype (e.g. integer outputs under `'int'`), this is
exactly `trajectory[t+1] = gen_fn(trajectory[t])`.  Generations are
computed in strictly increasing order, each from generation `t` alone. -/
theorem run_sim_step_recurrence (N0 : List ℚ) (gen_fn : List ℚ → List ℚ)
    (ngens : ℤ) (dt : Dtype) (traj : List (List ℚ)) (t : ℕ)
    (hrun : run_sim N0 gen_fn ngens dt = Except.ok traj)
    (h1 : t < traj.length) (h2 : t + 1 < traj.length) :
    ∃ r, assignRow N0.length (gen_fn (traj[t])) = some r ∧
      traj[t + 1] = List.map (castD dt) r := by
  obtain ⟨hn, rs, hloop, htraj⟩ := run_sim_ok_elim hrun
  subst htraj
  exact simLoop_get_succ gen_fn dt N0.length _ _ _ hloop t h1 h2

/-- C2 counterexample: under the default `'int'` dtype the stored
generation is the truncation of the transition output, so
`trajectory[t]` can differ from `gen_fn(trajectory[t-1])`: with
`gen_fn(v) = v + 1/2` from `[0]`, the stored generation 1 is `[0]`
while the transition output is `[1/2]`. -/
theorem run_sim_step_not_exact :
    run_sim [(0 : ℚ)] (fun v => v.map (fun x => x + 1 / 2)) 2 Dtype.int =
      Except.ok [[0], [0]] ∧
    [(0 : ℚ)].map (fun x => x + 1 / 2) ≠ [(0 : ℚ)] := by
  have htd : Int.tdiv 1 2 = 0 := by decide
  constructor
  · norm_num [run_sim, simLoop, assignRow, castD, truncQ, htd]
  · norm_num

theorem run_sim_step_recurrence_witness :
    ∃ r, assignRow ([(7 : ℚ)].length)
        ((fun v => v) (([[(7 : ℚ)], [7], [7]] : List (List ℚ))[1])) =
        some r ∧
      ([[(7 : ℚ)], [7], [7]] : List (List ℚ))[2] =
        List.map (castD Dtype.int) r :=
  run_sim_step_recurrence [(7 : ℚ)] (fun v => v) 3 Dtype.int
    [[7], [7], [7]] 1 (by decide) (by decide) (by decide)

/-- C3: the dual-track driver fails with `AssertionError` whenever the
two initial vectors have unequal length, before any trajectory storage
exists and without ever invoking the transition function (the outcome is
identical for every transition function); for equal-length initial
vectors the two returned trajectories always have the same length, i.e.
they advance in lockstep. -/
theorem run_sim_2d_assert_and_lockstep :
    (∀ (N0 M0 : List ℚ) (f g : List ℚ → List ℚ → List ℚ × List ℚ)
        (ngens : ℤ) (dt : Dtype),
      N0.length ≠ M0.length →
      run_sim_2d N0 M0 f ngens dt = Except.error SimError.assertionError ∧
      run_sim_2d N0 M0 f ngens dt = run_sim_2d N0 M0 g ngens dt) ∧
    (∀ (N0 M0 : List ℚ) (f : List ℚ → List ℚ → List ℚ × List ℚ)
        (ngens : ℤ) (dt : Dtype) (tN tM : List (List ℚ)),
      run_sim_2d N0 M0 f ngens dt = Except.ok (tN, tM) →
      tN.length = tM.length) := by
  constructor
  · intro N0 M0 f g ngens dt h
    constructor
    · simp [run_sim_2d, h]
    · simp [run_sim_2d, h]
  · intro N0 M0 f ngens dt tN tM hrun
    obtain ⟨hL, hn, a, b, hloop, htN, htM⟩ := run_sim_2d_ok_elim hrun
    obtain ⟨ha, hb⟩ := loop2d_ok_length f dt N0.length _ _ _ _ _ hloop
    subst htN
    subst htM
    simp [ha, hb]

theorem run_sim_2d_assert_and_lockstep_witness :
    (run_sim_2d [(1 : ℚ)] [(1 : ℚ), 2] (fun v w => (v, w)) 3 Dtype.int =
        Except.error SimError.assertionError ∧
      run_sim_2d [(1 : ℚ)] [(1 : ℚ), 2] (fun v w => (v, w)) 3 Dtype.int =
        run_sim_2d [(1 : ℚ)] [(1 : ℚ), 2] (fun v w => (w, v)) 3 Dtype.int) ∧
    ([[(5 : ℚ)], [5]] : List (List ℚ)).length =
      ([[(6 : ℚ)], [6]] : List (List ℚ)).length :=
  ⟨run_sim_2d_assert_and_lockstep.1 [(1 : ℚ)] [(1 : ℚ), 2]
      (fun v w => (v, w)) (fun v w => (w, v)) 3 Dtype.int (by decide),
   run_sim_2d_assert_and_lockstep.2 [(5 : ℚ)] [(6 : ℚ)] (fun v w => (v, w))
      2 Dtype.int [[5], [5]] [[6], [6]] (by decide)⟩

/-- C4 (amended): `run_sim` fails (raises) whenever the requested
generation count is less than 1.  A transition output at an executed
step must have length `L` or length `1`: on every successful run each
executed step's output had one of those lengths, and an output whose
length is neither `L` nor `1` raises `ValueError` at its step.  Length-1
outputs are not rejected — numpy broadcasts them across the `L`
replicates (see the counterexample). -/
theorem run_sim_failure_modes :
    (∀ (N0 : List ℚ) (gen_fn : List ℚ → List ℚ) (ngens : ℤ) (dt : Dtype),
      ngens < 1 → ∃ e, run_sim N0 gen_fn ngens dt = Except.error e) ∧
    (∀ (N0 : List ℚ) (gen_fn : List ℚ → List ℚ) (ngens : ℤ) (dt : Dtype)
        (traj : List (List ℚ)),
      run_sim N0 gen_fn ngens dt = Except.ok traj →
      ∀ (t : ℕ), t < traj.length → t + 1 < traj.length →
        (gen_fn (traj.getD t [])).length = N0.length ∨
        (gen_fn (traj.getD t [])).length = 1) ∧
    (∀ (N0 : List ℚ) (gen_fn : List ℚ → List ℚ) (ngens : ℤ) (dt : Dtype),
      2 ≤ ngens →
      (gen_fn (N0.map (castD dt))).length ≠ N0.length →
      (gen_fn (N0.map (castD dt))).length ≠ 1 →
      run_sim N0 gen_fn ngens dt = Except.error SimError.shapeMismatch) := by
  refine ⟨?_, ?_, ?_⟩
  · intro N0 gen_fn ngens dt h
    by_cases hneg : ngens < 0
    · exact ⟨SimError.negativeDimension, by simp [run_sim, hneg]⟩
    · have h0 : ngens = 0 := by omega
      subst h0
      exact ⟨SimError.indexError, by simp [run_sim]⟩
  · intro N0 gen_fn ngens dt traj hrun t h1 h2
    obtain ⟨r, hr, hstep⟩ :=
      run_sim_step_recurrence N0 gen_fn ngens dt traj t hrun h1 h2
    rw [List.getD_eq_getElem traj [] h1]
    exact assignRow_some_outLength hr
  · intro N0 gen_fn ngens dt hn hlen hlen1
    have hne : assignRow N0.length (gen_fn (N0.map (castD dt))) = none :=
      assignRow_none hlen hlen1
    obtain ⟨m, hm⟩ : ∃ m, (ngens - 1).toNat = m + 1 :=
      ⟨(ngens - 2).toNat, by omega⟩
    have h0 : ¬ngens < 0 := by omega
    have h1 : ¬ngens = 0 := by omega
    simp [run_sim, h0, h1, hm, simLoop, hne]

/-- C4 counterexample: a transition output of length 1 with `L = 2` does
not make `run_sim` fail; numpy broadcasts the single value across the
row and the driver returns a trajectory. -/
theorem run_sim_broadcast_no_failure :
    run_sim [(5 : ℚ), 6] (fun _ => [7]) 2 Dtype.int =
      Except.ok [[5, 6], [7, 7]] ∧
    [(7 : ℚ)].length ≠ [(5 : ℚ), 6].length := by
  constructor
  · decide
  · decide

theorem run_sim_failure_modes_witness :
    (∃ e, run_sim [(1 : ℚ)] (fun v => v) 0 Dtype.int = Except.error e) ∧
    (((fun v => v) (([[(9 : ℚ)], [9]] : List (List ℚ)).getD 0 [])).length =
        [(9 : ℚ)].length ∨
      ((fun v => v) (([[(9 : ℚ)], [9]] : List (List ℚ)).getD 0 [])).length = 1) :=
  ⟨run_sim_failure_modes.1 [(1 : ℚ)] (fun v => v) 0 Dtype.int (by decide),
   run_sim_failure_modes.2.1 [(9 : ℚ)] (fun v => v) 2 Dtype.int
      [[9], [9]] (by decide) 0 (by decide) (by decide)⟩

/-- C5 (amended): requesting a single generation from either driver
returns a trajectory (or pair of trajectories) containing only the
dtype coercion of the initial vector(s) — the initial vector(s)
themselves whenever their values are fixed by the requested dtype — and
the transition function is never invoked: the result is identical for
every transition function. -/
theorem run_sim_single_generation :
    (∀ (N0 : List ℚ) (f g : List ℚ → List ℚ) (dt : Dtype),
      run_sim N0 f 1 dt = Except.ok [N0.map (castD dt)] ∧
      run_sim N0 f 1 dt = run_sim N0 g 1 dt) ∧
    (∀ (N0 M0 : List ℚ) (f g : List ℚ → List ℚ → List ℚ × List ℚ)
        (dt : Dtype),
      N0.length = M0.length →
      run_sim_2d N0 M0 f 1 dt =
        Except.ok ([N0.map (castD dt)], [M0.map (castD dt)]) ∧
      run_sim_2d N0 M0 f 1 dt = run_sim_2d N0 M0 g 1 dt) := by
  constructor
  · intro N0 f g dt
    exact ⟨rfl, rfl⟩
  · intro N0 M0 f g dt h
    constructor
    · simp [run_sim_2d, h, loop2d]
    · simp [run_sim_2d, h, loop2d]

/-- C5 counterexample: with a fractional initial vector under the
default `'int'` dtype, the single-generation trajectory does not contain
the initial vector itself but its truncation: `[5/2]` is stored as
`[2]`. -/
theorem run_sim_single_generation_coerced :
    run_sim [(5 : ℚ) / 2] (fun v => v) 1 Dtype.int = Except.ok [[2]] ∧
    (5 : ℚ) / 2 ≠ 2 := by
  have htd : Int.tdiv 5 2 = 2 := by decide
  constructor
  · norm_num [run_sim, simLoop, assignRow, castD, truncQ, htd]
  · norm_num

theorem run_sim_single_generation_witness :
    (run_sim [(8 : ℚ)] (fun v => v) 1 Dtype.int =
        Except.ok [[(8 : ℚ)].map (castD Dtype.int)] ∧
      run_sim [(8 : ℚ)] (fun v => v) 1 Dtype.int =
        run_sim [(8 : ℚ)] (fun v => v.map (fun x => x)) 1 Dtype.int) ∧
    (run_sim_2d [(8 : ℚ)] [(9 : ℚ)] (fun v w => (v, w)) 1 Dtype.int =
        Except.ok ([[(8 : ℚ)].map (castD Dtype.int)],
          [[(9 : ℚ)].map (castD Dtype.int)]) ∧
      run_sim_2d [(8 : ℚ)] [(9 : ℚ)] (fun v w => (v, w)) 1 Dtype.int =
        run_sim_2d [(8 : ℚ)] [(9 : ℚ)] (fun _ w => (w, w)) 1 Dtype.int) :=
  ⟨run_sim_single_generation.1 [(8 : ℚ)] (fun v => v)
      (fun v => v.map (fun x => x)) Dtype.int,
   run_sim_single_generation.2 [(8 : ℚ)] [(9 : ℚ)] (fun v w => (v, w))
      (fun _ w => (w, w)) Dtype.int (by decide)⟩

theorem mem_map_castD_int {l : List ℚ} {x : ℚ}
    (hx : x ∈ List.map (castD Dtype.int) l) : x = ((truncQ x : ℤ) : ℚ) := by
  obtain ⟨y, hy, rfl⟩ := List.mem_map.mp hx
  simp [castD, truncQ_intCast]

/-- C8: on every successful driver invocation the trajectory length
equals the requested generation count, every generation has the same
element count, equal to the length of the supplied initial condition,
and for the dual-track driver the two initial conditions have equal
length. -/
theorem run_sim_shape_invariants :
    (∀ (N0 : List ℚ) (gen_fn : List ℚ → List ℚ) (ngens : ℤ) (dt : Dtype)
        (traj : List (List ℚ)),
      run_sim N0 gen_fn ngens dt = Except.ok traj →
      (traj.length : ℤ) = ngens ∧ ∀ row ∈ traj, row.length = N0.length) ∧
    (∀ (N0 M0 : List ℚ) (gen_fn : List ℚ → List ℚ → List ℚ × List ℚ)
        (ngens : ℤ) (dt : Dtype) (tN tM : List (List ℚ)),
      run_sim_2d N0 M0 gen_fn ngens dt = Except.ok (tN, tM) →
      N0.length = M0.length ∧
      (tN.length : ℤ) = ngens ∧ (tM.length : ℤ) = ngens ∧
      (∀ row ∈ tN, row.length = N0.length) ∧
      (∀ row ∈ tM, row.length = M0.length)) := by
  constructor
  · intro N0 gen_fn ngens dt traj hrun
    obtain ⟨hn, rs, hloop, htraj⟩ := run_sim_ok_elim hrun
    have hlen := simLoop_ok_length gen_fn dt N0.length _ _ _ hloop
    have hrows := simLoop_ok_rows gen_fn dt N0.length _ _ _ hloop
    subst htraj
    constructor
    · simp [hlen]
      omega
    · intro row hrow
      rcases List.mem_cons.mp hrow with h0 | h0
      · simp [h0]
      · exact (hrows row h0).1
  · intro N0 M0 gen_fn ngens dt tN tM hrun
    obtain ⟨hL, hn, a, b, hloop, htN, htM⟩ := run_sim_2d_ok_elim hrun
    obtain ⟨ha, hb⟩ := loop2d_ok_length gen_fn dt N0.length _ _ _ _ _ hloop
    obtain ⟨hrowsa, hrowsb⟩ := loop2d_ok_rows gen_fn dt N0.length _ _ _ _ _ hloop
    subst htN
    subst htM
    refine ⟨hL, by simp [ha]; omega, by simp [hb]; omega, ?_, ?_⟩
    · intro row hrow
      rcases List.mem_cons.mp hrow with h0 | h0
      · simp [h0]
      · exact (hrowsa row h0).1
    · intro row hrow
      rcases List.mem_cons.mp hrow with h0 | h0
      · simp [h0]
      · rw [(hrowsb row h0).1, hL]

theorem run_sim_shape_invariants_witness :
    ((([[(12 : ℚ)], [12]] : List (List ℚ)).length : ℤ) = 2 ∧
      ∀ row ∈ ([[(12 : ℚ)], [12]] : List (List ℚ)),
        row.length = [(12 : ℚ)].length) ∧
    ([(1 : ℚ), 2].length = [(3 : ℚ), 4].length ∧
      (([[(1 : ℚ), 2], [1, 2]] : List (List ℚ)).length : ℤ) = 2 ∧
      (([[(3 : ℚ), 4], [3, 4]] : List (List ℚ)).length : ℤ) = 2 ∧
      (∀ row ∈ ([[(1 : ℚ), 2], [1, 2]] : List (List ℚ)),
        row.length = [(1 : ℚ), 2].length) ∧
      (∀ row ∈ ([[(3 : ℚ), 4], [3, 4]] : List (List ℚ)),
        row.length = [(3 : ℚ), 4].length)) :=
  ⟨run_sim_shape_invariants.1 [(12 : ℚ)] (fun v => v) 2 Dtype.int
      [[12], [12]] (by decide),
   run_sim_shape_invariants.2 [(1 : ℚ), 2] [(3 : ℚ), 4] (fun v w => (v, w))
      2 Dtype.int [[1, 2], [1, 2]] [[3, 4], [3, 4]] (by decide)⟩

/-- C9: both drivers coerce every stored generation — generation 0
included — to the requested dtype; under the `'int'` dtype (the Python
default of the `dtype` parameter) every stored value is an integer,
generation 0 is the elementwise truncation of the supplied initial
vector, and a fractional initial value or transition output is stored
as its integer truncation, not as the supplied value: `[3/2]` is stored
as `[1]`, and the transition output `[3/2]` is stored as `[1]`. -/
theorem run_sim_int_dtype_truncates :
    (∀ (N0 : List ℚ) (gen_fn : List ℚ → List ℚ) (ngens : ℤ)
        (traj : List (List ℚ)),
      run_sim N0 gen_fn ngens Dtype.int = Except.ok traj →
      traj.head? = some (N0.map (castD Dtype.int)) ∧
      ∀ row ∈ traj, ∀ x ∈ row, x = ((truncQ x : ℤ) : ℚ)) ∧
    (∀ (N0 M0 : List ℚ) (gen_fn : List ℚ → List ℚ → List ℚ × List ℚ)
        (ngens : ℤ) (tN tM : List (List ℚ)),
      run_sim_2d N0 M0 gen_fn ngens Dtype.int = Except.ok (tN, tM) →
      tN.head? = some (N0.map (castD Dtype.int)) ∧
      tM.head? = some (M0.map (castD Dtype.int)) ∧
      (∀ row ∈ tN, ∀ x ∈ row, x = ((truncQ x : ℤ) : ℚ)) ∧
      (∀ row ∈ tM, ∀ x ∈ row, x = ((truncQ x : ℤ) : ℚ))) ∧
    (run_sim [(3 : ℚ) / 2] (fun v => v) 1 Dtype.int = Except.ok [[1]] ∧
      (3 : ℚ) / 2 ≠ 1) ∧
    (run_sim [(0 : ℚ)] (fun v => v.map (fun x => x + 3 / 2)) 2 Dtype.int =
        Except.ok [[0], [1]] ∧
      [(0 : ℚ)].map (fun x => x + 3 / 2) = [(3 : ℚ) / 2] ∧
      (3 : ℚ) / 2 ≠ 1) := by
  have htd : Int.tdiv 3 2 = 1 := by decide
  refine ⟨?_, ?_, ?_, ?_⟩
  · intro N0 gen_fn ngens traj hrun
    obtain ⟨hn, rs, hloop, htraj⟩ := run_sim_ok_elim hrun
    have hrows := simLoop_ok_rows gen_fn Dtype.int N0.length _ _ _ hloop
    subst htraj
    refine ⟨by simp, ?_⟩
    intro row hrow x hx
    rcases List.mem_cons.mp hrow with h0 | h0
    · subst h0
      exact mem_map_castD_int hx
    · obtain ⟨-, raw, hraw⟩ := hrows row h0
      subst hraw
      exact mem_map_castD_int hx
  · intro N0 M0 gen_fn ngens tN tM hrun
    obtain ⟨hL, hn, a, b, hloop, htN, htM⟩ := run_sim_2d_ok_elim hrun
    obtain ⟨hrowsa, hrowsb⟩ :=
      loop2d_ok_rows gen_fn Dtype.int N0.length _ _ _ _ _ hloop
    subst htN
    subst htM
    refine ⟨by simp, by simp, ?_, ?_⟩
    · intro row hrow x hx
      rcases List.mem_cons.mp hrow with h0 | h0
      · subst h0
        exact mem_map_castD_int hx
      · obtain ⟨-, raw, hraw⟩ := hrowsa row h0
        subst hraw
        exact mem_map_castD_int hx
    · intro row hrow x hx
      rcases List.mem_cons.mp hrow with h0 | h0
      · subst h0
        exact mem_map_castD_int hx
      · obtain ⟨-, raw, hraw⟩ := hrowsb row h0
        subst hraw
        exact mem_map_castD_int hx
  · constructor
    · norm_num [run_sim, simLoop, assignRow, castD, truncQ, htd]
    · norm_num
  · refine ⟨?_, by norm_num, by norm_num⟩
    norm_num [run_sim, simLoop, assignRow, castD, truncQ, htd]

theorem run_sim_int_dtype_truncates_witness :
    (([[(6 : ℚ)], [6]] : List (List ℚ)).head? =
        some ([(6 : ℚ)].map (castD Dtype.int)) ∧
      ∀ row ∈ ([[(6 : ℚ)], [6]] : List (List ℚ)), ∀ x ∈ row,
        x = ((truncQ x : ℤ) : ℚ)) ∧
    (([[(4 : ℚ)], [4]] : List (List ℚ)).head? =
        some ([(4 : ℚ)].map (castD Dtype.int)) ∧
      ([[(5 : ℚ)], [5]] : List (List ℚ)).head? =
        some ([(5 : ℚ)].map (castD Dtype.int)) ∧
      (∀ row ∈ ([[(4 : ℚ)], [4]] : List (List ℚ)), ∀ x ∈ row,
        x = ((truncQ x : ℤ) : ℚ)) ∧
      (∀ row ∈ ([[(5 : ℚ)], [5]] : List (List ℚ)), ∀ x ∈ row,
        x = ((truncQ x : ℤ) : ℚ))) :=
  ⟨run_sim_int_dtype_truncates.1 [(6 : ℚ)] (fun v => v) 2 [[6], [6]]
      (by decide),
   run_sim_int_dtype_truncates.2.1 [(4 : ℚ)] [(5 : ℚ)] (fun v w => (v, w))
      2 [[4], [4]] [[5], [5]] (by decide)⟩

/-- C10: the drivers pass generation `t-1` to the transition function as
a mutable view into the trajectory buffer (modelled by writing the
view's post-call contents back into slot `t-1`).  For every transition
function that does not mutate its array arguments the mutation-aware
drivers coincide with the pure drivers, so every already-written
generation — generation 0 included — is unchanged in the returned
trajectory.  This frame property fails for in-place-mutating transition
functions such as `SI_gen`: with the deterministic `SI_gen`-style
mutator `siGenLike` the returned generation 0 is `([202], [9])`, not the
stored initial generation `([200], [10])`. -/
theorem run_sim_mut_frame :
    (∀ (N0 : List ℚ) (gen_fn : List ℚ → List ℚ × List ℚ) (ngens : ℤ)
        (dt : Dtype),
      (∀ v, (gen_fn v).1 = v) →
      run_sim_mut N0 gen_fn ngens dt =
        run_sim N0 (fun v => (gen_fn v).2) ngens dt) ∧
    (∀ (N0 M0 : List ℚ)
        (gen_fn : List ℚ → List ℚ → (List ℚ × List ℚ) × (List ℚ × List ℚ))
        (ngens : ℤ) (dt : Dtype),
      (∀ v w, (gen_fn v w).1 = (v, w)) →
      run_sim_2d_mut N0 M0 gen_fn ngens dt =
        run_sim_2d N0 M0 (fun v w => (gen_fn v w).2) ngens dt) ∧
    (∀ (N0 : List ℚ) (gen_fn : List ℚ → List ℚ × List ℚ) (ngens : ℤ)
        (dt : Dtype) (traj : List (List ℚ)),
      (∀ v, (gen_fn v).1 = v) →
      run_sim_mut N0 gen_fn ngens dt = Except.ok traj →
      traj.head? = some (N0.map (castD dt))) ∧
    (run_sim_2d_mut [(200 : ℚ)] [(10 : ℚ)] siGenLike 2 Dtype.int =
        Except.ok ([[202], [202]], [[9], [9]]) ∧
      ([(202 : ℚ)] : List ℚ) ≠ [(200 : ℚ)]) := by
  refine ⟨?_, ?_, ?_, ?_⟩
  · intro N0 gen_fn ngens dt hf
    exact run_sim_mut_pure N0 gen_fn ngens dt hf
  · intro N0 M0 gen_fn ngens dt hf
    exact run_sim_2d_mut_pure N0 M0 gen_fn ngens dt hf
  · intro N0 gen_fn ngens dt traj hf hrun
    rw [run_sim_mut_pure N0 gen_fn ngens dt hf] at hrun
    obtain ⟨hn, rs, hloop, htraj⟩ := run_sim_ok_elim hrun
    subst htraj
    simp
  · constructor
    · norm_num [run_sim_2d_mut, loop2dMut, siGenLike, assignRow, castD,
        truncQ]
    · norm_num

theorem run_sim_mut_frame_witness :
    (run_sim_mut [(5 : ℚ)] (fun v => (v, v)) 2 Dtype.int =
        run_sim [(5 : ℚ)] (fun v => v) 2 Dtype.int) ∧
    (run_sim_2d_mut [(5 : ℚ)] [(6 : ℚ)] (fun v w => ((v, w), (v, w))) 2
        Dtype.int =
      run_sim_2d [(5 : ℚ)] [(6 : ℚ)] (fun v w => (v, w)) 2 Dtype.int) ∧
    ([[(5 : ℚ)], [5]] : List (List ℚ)).head? =
      some ([(5 : ℚ)].map (castD Dtype.int)) :=
  ⟨run_sim_mut_frame.1 [(5 : ℚ)] (fun v => (v, v)) 2 Dtype.int
      (fun _ => rfl),
   run_sim_mut_frame.2.1 [(5 : ℚ)] [(6 : ℚ)] (fun v w => ((v, w), (v, w)))
      2 Dtype.int (fun _ _ => rfl),
   run_sim_mut_frame.2.2.1 [(5 : ℚ)] (fun v => (v, v)) 2 Dtype.int
      [[5], [5]] (fun _ => rfl) (by decide)⟩
